import Mathlib

/-!
Verification development for the Python bindings of the tokenizers
normalized-string module (`bindings/python/src/utils/normalization.rs`).

Strings are embedded as `List Char`; byte offsets are computed from
`Char.utf8Size`, matching Rust's UTF-8 byte indexing.  Python-level
errors (`PyErr`) are an explicit error type; Rust panics that unwind
through a pyo3 boundary surface to the Python caller as an exception,
modelled here by the `panicExc` constructor.  Host (Python) values that
cross the boundary are modelled by `PyValue`, and host callbacks by
`PyCallback` (a callability flag plus a result function, mirroring
`func.is_callable()` followed by `func.call1(...)`).
-/

namespace Spec2Proof

/-- Python-level error values raised by the bindings. -/
inductive PyErr where
  | typeError (msg : String)
  | valueError (msg : String)
  | exception (msg : String)
  | panicExc (msg : String)
  deriving DecidableEq, Repr

/-- A Python value as observed through pyo3 extraction at the binding
boundary: a string, a bool, `None`, or anything else. -/
inductive PyValue where
  | str (s : List Char)
  | bool (b : Bool)
  | none
  | other
  deriving Repr

/-- A host callback: `callable` mirrors `func.is_callable()`; `run c`
mirrors `func.call1((c.to_string(),))`, which either raises a Python
exception or returns a Python value. -/
structure PyCallback where
  callable : Bool
  run : Char → Except PyErr PyValue

/-- pyo3 extraction of a `String` from a Python value: succeeds exactly
on `str` values. -/
def extractString : PyValue → Option (List Char)
  | .str s => some s
  | _ => Option.none

/-- pyo3 extraction of a `bool` from a Python value: succeeds exactly on
`bool` values (no Python truthiness coercion). -/
def extractBool : PyValue → Option Bool
  | .bool b => some b
  | _ => Option.none

/-- Total UTF-8 byte length of a character list (Rust `str::len`). -/
def byteLen (s : List Char) : Nat :=
  (s.map Char.utf8Size).sum

/-- The normalized-string data model: `original` is the immutable input
text, `normalized` the current text, and `alignments` holds one byte
range into `original` per character of `normalized`. -/
structure NormalizedString where
  original : List Char
  normalized : List Char
  alignments : List (Nat × Nat)
  deriving DecidableEq, Repr

/-- Identity alignment table: character `i` of `s` is mapped to its own
byte range in `s`. -/
def identityAlignments : List Char → Nat → List (Nat × Nat)
  | [], _ => []
  | c :: rest, pos => (pos, pos + c.utf8Size) :: identityAlignments rest (pos + c.utf8Size)

/-- Embeds `NormalizedString::from(s)`: original = normalized = s, identity
alignments. -/
def NormalizedString.fromChars (s : List Char) : NormalizedString :=
  { original := s, normalized := s, alignments := identityAlignments s 0 }

/-- Embeds `NormalizedString::len` as used by the binding `slice` helper (the
character count the range is resolved against, per the spec's Range
Resolver: "against current character count"). -/
def NormalizedString.len (ns : NormalizedString) : Nat :=
  ns.normalized.length

/-- The `SplitDelimiterBehavior` enum of the core library. -/
inductive SplitDelimiterBehavior where
  | removed
  | isolated
  | mergedWithPrevious
  | mergedWithNext
  | contiguous
  deriving DecidableEq, Repr

/-- Embeds `PySplitDelimiterBehavior::extract_bound`: parse the behavior from a
Python string; exactly five values are accepted, anything else is a
`ValueError`. -/
def extractSplitDelimiterBehavior (s : String) : Except PyErr SplitDelimiterBehavior :=
  if s = "removed" then .ok .removed
  else if s = "isolated" then .ok .isolated
  else if s = "merged_with_previous" then .ok .mergedWithPrevious
  else if s = "merged_with_next" then .ok .mergedWithNext
  else if s = "contiguous" then .ok .contiguous
  else .error (.valueError
    "Wrong value for SplitDelimiterBehavior, expected one of: `removed, isolated, merged_with_previous, merged_with_next, contiguous`")

/-- The `PyRange` enum: a single (possibly negative) index, an explicit
(start, end) pair, or a Python slice (start / stop / step, each possibly
absent). -/
inductive PyRangeSpec where
  | single (i : Int)
  | range (s e : Nat)
  | slice (start stop step : Option Int)
  deriving DecidableEq, Repr

/-- Rust `isize as usize` cast (two's complement wrap at 64 bits). -/
def castUsize (i : Int) : Nat :=
  (i % (2 ^ 64)).toNat

/-- Modelled from the spec: CPython `slice.indices(length)` (the pyo3
`PySlice::indices` call), absent from src/.  "slice resolves using
standard clamped slice semantics against `n` (negative endpoints count
from the end, out-of-range endpoints clamp to [0,n])"; a step of zero is
rejected with a `ValueError`, following CPython's documented behavior.
Returns the adjusted (start, stop, step). -/
def sliceIndices (start stop step : Option Int) (length : Nat) :
    Except PyErr (Int × Int × Int) :=
  let n : Int := (length : Int)
  if step = some 0 then .error (.valueError "slice step cannot be zero")
  else
    let st : Int := step.getD 1
    let defStart : Int := if st < 0 then n - 1 else 0
    let defStop : Int := if st < 0 then -1 else n
    let adjStart : Int :=
      match start with
      | Option.none => defStart
      | some v =>
        if v < 0 then
          if v + n < 0 then (if st < 0 then -1 else 0) else v + n
        else if v ≥ n then (if st < 0 then n - 1 else n) else v
    let adjStop : Int :=
      match stop with
      | Option.none => defStop
      | some v =>
        if v < 0 then
          if v + n < 0 then (if st < 0 then -1 else 0) else v + n
        else if v ≥ n then (if st < 0 then n - 1 else n) else v
    .ok (adjStart, adjStop, st)

/-- Embeds `PyRange::to_range`: resolve a range specification against the bound
`max_len`.  A negative single index counts from the end and errors when
its magnitude exceeds the bound; a non-negative single index resolves to
`[i, i+1)` unchecked; an explicit pair is used verbatim; a slice goes
through `slice.indices` and the resulting start/stop are cast to
`usize`. -/
def toRange (r : PyRangeSpec) (max_len : Nat) : Except PyErr (Nat × Nat) :=
  match r with
  | .single i =>
    if i < 0 then
      let j := (-i).toNat
      if j > max_len then
        .error (.valueError (toString j ++ " is bigger than max len"))
      else
        .ok (max_len - j, max_len - j + 1)
    else
      .ok (i.toNat, i.toNat + 1)
  | .range s e => .ok (s, e)
  | .slice start stop step => do
    let (s, e, _) ← sliceIndices start stop step max_len
    .ok (castUsize s, castUsize e)

/-! ### Pattern matching

Modelled from the spec: the `Pattern` implementations for `char` and for
`&str` of the core library are absent from src/ (only the dispatch in
`PyPattern::find_matches` is).  Spec §4.2: a pattern's `findMatches`
returns an ordered sequence of `(span, isMatch)` byte spans that
partitions the whole haystack with no gaps; the single-character variant
matches every occurrence of that exact character; the multi-character
variant matches every occurrence of that exact substring,
non-overlapping, greedy left-to-right.  An empty haystack yields the
single empty unmatched span. -/

/-- Byte spans of the occurrences of character `c` in the haystack,
scanning left to right from byte position `pos`. -/
def charMatchSpans (c : Char) : List Char → Nat → List (Nat × Nat)
  | [], _ => []
  | x :: rest, pos =>
    if x = c then (pos, pos + x.utf8Size) :: charMatchSpans c rest (pos + x.utf8Size)
    else charMatchSpans c rest (pos + x.utf8Size)

/-- Byte spans of the non-overlapping, greedy, left-to-right occurrences
of the substring `needle` in the haystack, from byte position `pos`. -/
def scanMatches (needle : List Char) : List Char → Nat → List (Nat × Nat)
  | [], _ => []
  | x :: rest, pos =>
    if needle ≠ [] ∧ (x :: rest).take needle.length = needle then
      (pos, pos + byteLen needle) ::
        scanMatches needle ((x :: rest).drop needle.length) (pos + byteLen needle)
    else
      scanMatches needle rest (pos + x.utf8Size)
  termination_by l _ => l.length
  decreasing_by
    · simp only [List.length_drop]
      cases needle with
      | nil => simp_all
      | cons a as => simp [List.length_cons]; omega
    · simp [List.length_cons]

/-- Fill the gaps between the (ordered, disjoint) match spans with
unmatched spans, producing the total partition of `[prev, total)`. -/
def fillGaps (total : Nat) : Nat → List (Nat × Nat) → List ((Nat × Nat) × Bool)
  | prev, [] => if prev < total then [((prev, total), false)] else []
  | prev, (s, e) :: ms =>
    (if prev < s then [((prev, s), false)] else []) ++ ((s, e), true) :: fillGaps total e ms

/-- Single-character literal pattern: the partition of the haystack into
occurrences of `c` (matched) and the maximal runs between them
(unmatched). -/
def charFindMatches (c : Char) (inside : List Char) : List ((Nat × Nat) × Bool) :=
  if inside = [] then [((0, 0), false)]
  else fillGaps (byteLen inside) 0 (charMatchSpans c inside 0)

/-- Multi-character literal pattern: the partition of the haystack into
non-overlapping greedy left-to-right occurrences of `needle` (matched)
and the runs between them (unmatched). -/
def strFindMatches (needle : List Char) (inside : List Char) : List ((Nat × Nat) × Bool) :=
  if inside = [] then [((0, 0), false)]
  else fillGaps (byteLen inside) 0 (scanMatches needle inside 0)

/-- Embeds the `Str` arm of `impl Pattern for PyPattern::find_matches`: if the
literal has exactly one character, dispatch to the single-character
path; otherwise to the multi-character (substring) path. -/
def pyPatternFindMatches (s : List Char) (inside : List Char) : List ((Nat × Nat) × Bool) :=
  match s with
  | [c] => charFindMatches c inside
  | _ => strFindMatches s inside

/-- A `PyPattern`: a string literal, or a compiled regular expression —
the latter is the external matching capability of spec §6, carried as a
function that may fail with a pattern error. -/
inductive PyPatternSpec where
  | str (s : List Char)
  | regex (find : List Char → Except String (List ((Nat × Nat) × Bool)))

/-- Embeds `PyPattern::find_matches`: dispatch on the pattern variant. -/
def PyPatternSpec.findMatches (p : PyPatternSpec) (inside : List Char) :
    Except String (List ((Nat × Nat) × Bool)) :=
  match p with
  | .str s => .ok (pyPatternFindMatches s inside)
  | .regex find => find inside

/-! ### Offset Index and slice -/

/-- Byte offset of character position `i` in `s`. -/
def byteOffsetOfChar (s : List Char) (i : Nat) : Nat :=
  byteLen (s.take i)

/-- Modelled from the spec: `char_to_bytes` of the core library (the
Offset Index), absent from src/.  It converts a character range into the
corresponding byte range of the UTF-8 text, and yields no value when the
intersection of the requested range with the text's character positions
is empty (spec §4.1: "no value if the byte conversion cannot locate a
valid sub-string (empty intersection)"). -/
def char_to_bytes (s : List Char) (r : Nat × Nat) : Option (Nat × Nat) :=
  let lo := r.1
  let hi := min r.2 s.length
  if lo < hi then some (byteOffsetOfChar s lo, byteOffsetOfChar s hi)
  else Option.none

/-- Characters of `s` (paired with companion data `a`) whose byte span
lies inside `[bs, be)`, walking from byte position `pos`. -/
def sliceWithCompanion {α : Type} : List (Char × α) → Nat → Nat → Nat → List (Char × α)
  | [], _, _, _ => []
  | (c, a) :: rest, pos, bs, be =>
    let nxt := pos + c.utf8Size
    if bs ≤ pos ∧ nxt ≤ be then (c, a) :: sliceWithCompanion rest nxt bs be
    else sliceWithCompanion rest nxt bs be

/-- Characters of `s` fully contained in the byte range `[bs, be)`. -/
def sliceBytes (s : List Char) (bs be : Nat) : List Char :=
  (sliceWithCompanion (s.map (fun c => (c, ()))) 0 bs be).map (·.1)

/-- Union of a list of byte ranges: min of starts to max of ends; the
empty list yields the empty range at 0. -/
def unionRange : List (Nat × Nat) → Nat × Nat
  | [] => (0, 0)
  | (s, e) :: rest =>
    let u := unionRange rest
    if rest = [] then (s, e) else (min s u.1, max e u.2)

/-- Modelled from the spec: `NormalizedString::slice` of the core
library, absent from src/.  Spec §4.1: returns a new `NormalizedString`
scoped to the byte range of the normalized text, "with its own
`original` restricted to the union of alignment spans covered, and a
freshly zero-based alignment table", as an independent copy; no value
when the byte range does not lie within the normalized text. -/
def NormalizedString.coreSlice (ns : NormalizedString) (r : Nat × Nat) :
    Option NormalizedString :=
  if r.1 ≤ r.2 ∧ r.2 ≤ byteLen ns.normalized then
    let seg := sliceWithCompanion (ns.normalized.zip ns.alignments) 0 r.1 r.2
    let uni := unionRange (seg.map (·.2))
    some
      { original := sliceBytes ns.original uni.1 uni.2
        normalized := seg.map (·.1)
        alignments := seg.map (fun p => (p.2.1 - uni.1, p.2.2 - uni.1)) }
  else Option.none

/-- The binding helper `slice` (normalization.rs): resolve the range
against the character count, convert to bytes, and slice; a resolution
failure is an error, a failed byte conversion or core slice is
`Ok(None)`. -/
def sliceBinding (ns : NormalizedString) (range : PyRangeSpec) :
    Except PyErr (Option NormalizedString) := do
  let n_char := ns.len
  let char_range ← toRange range n_char
  .ok ((char_to_bytes ns.normalized char_range).bind fun bytes_range =>
    ns.coreSlice bytes_range)

/-- Embeds `PyNormalizedString::slice`: delegates to the `slice` helper. -/
def PyNormalizedString.sliceMethod (ns : NormalizedString) (range : PyRangeSpec) :
    Except PyErr (Option NormalizedString) :=
  sliceBinding ns range

/-- Embeds `PyNormalizedString::__getitem__`: delegates to the `slice`
helper. -/
def PyNormalizedString.getitem (ns : NormalizedString) (range : PyRangeSpec) :
    Except PyErr (Option NormalizedString) :=
  sliceBinding ns range

/-! ### Callback bindings: filter / for_each / map

The binding functions check `func.is_callable()` first (a `TypeError`
otherwise) and then traverse the normalized characters invoking the
callback; inside the traversal every fallible step is unwrapped with
`.expect(err)`, so a raising callback or a wrong-typed return value is a
panic carrying the contract message, surfaced to Python as an exception
(`panicExc`).  The core `NormalizedString` mutators are absent from
src/: they are modelled from spec §4.1 (and §7: a failing operation
leaves the instance in its prior state — the core collects all
per-character results before transforming, so an unwinding callback
mutates nothing). -/

def filterErrMsg : String :=
  "`filter` expect a callable with the signature: `fn(char) -> bool`"

def forEachErrMsg : String :=
  "`for_each` expect a callable with the signature: `fn(char)`"

def mapErrMsg : String :=
  "`map` expect a callable with the signature: `fn(char) -> char`"

/-- Left-to-right traversal of the characters, stopping at the first
failure — the evaluation order of the binding closures, with the results
collected before any transform is applied. -/
def traverseExcept {β : Type} (g : Char → Except PyErr β) : List Char → Except PyErr (List β)
  | [] => .ok []
  | c :: rest => do
    let b ← g c
    let bs ← traverseExcept g rest
    .ok (b :: bs)

/-- The closure body of the binding `filter`: call the callback on one
character and extract a `bool`; any failure is a panic with the contract
message. -/
def filterRunOne (func : PyCallback) (c : Char) : Except PyErr Bool :=
  match func.run c with
  | .error _ => .error (.panicExc filterErrMsg)
  | .ok v =>
    match extractBool v with
    | Option.none => .error (.panicExc filterErrMsg)
    | some b => .ok b

/-- The closure body of the binding `map`: call the callback, extract a
`String`, and take its first character (`c.chars().next()`); a raising
callback, a non-string value, or an empty string is a panic with the
contract message; extra characters beyond the first are discarded. -/
def mapRunOne (func : PyCallback) (c : Char) : Except PyErr Char :=
  match func.run c with
  | .error _ => .error (.panicExc mapErrMsg)
  | .ok v =>
    match extractString v with
    | Option.none => .error (.panicExc mapErrMsg)
    | some s =>
      match s with
      | [] => .error (.panicExc mapErrMsg)
      | c2 :: _ => .ok c2

/-- Modelled from the spec: `NormalizedString::filter` core, absent from
src/.  "retained characters and their alignment entries are preserved in
order; dropped characters and their entries are removed"; `keeps` is the
per-character verdict list (same order as `normalized`). -/
def NormalizedString.filterCore (ns : NormalizedString) (keeps : List Bool) : NormalizedString :=
  { ns with
    normalized := ((ns.normalized.zip keeps).filter (·.2)).map (·.1)
    alignments := ((ns.alignments.zip keeps).filter (·.2)).map (·.1) }

/-- Modelled from the spec: `NormalizedString::map` core, absent from
src/.  A 1:1 character remap: `cs` replaces the characters of
`normalized` positionally; "Alignment entries are unchanged
positionally". -/
def NormalizedString.mapCore (ns : NormalizedString) (cs : List Char) : NormalizedString :=
  { ns with normalized := cs }

/-- The binding `filter`: `TypeError` when the callback is not callable;
otherwise evaluate the predicate on every character (any failure unwinds
before the core transform, leaving the instance unchanged) and drop the
characters it rejects. -/
def filterBinding (ns : NormalizedString) (func : PyCallback) :
    Except PyErr Unit × NormalizedString :=
  if !func.callable then (.error (.typeError filterErrMsg), ns)
  else
    match traverseExcept (filterRunOne func) ns.normalized with
    | .error e => (.error e, ns)
    | .ok keeps => (.ok (), ns.filterCore keeps)

/-- The closure body of the binding `for_each`: call the observer on one
character and discard the value; a raising observer is a panic with the
contract message. -/
def obsRunOne (func : PyCallback) (c : Char) : Except PyErr Unit :=
  match func.run c with
  | .error _ => .error (.panicExc forEachErrMsg)
  | .ok _ => .ok ()

/-- The binding `for_each`: `TypeError` when the callback is not
callable; otherwise invoke the observer on every character of the
normalized text in order.  The core traversal takes the instance by
shared reference and never mutates it. -/
def forEachBinding (ns : NormalizedString) (func : PyCallback) :
    Except PyErr Unit × NormalizedString :=
  if !func.callable then (.error (.typeError forEachErrMsg), ns)
  else
    match traverseExcept (obsRunOne func) ns.normalized with
    | .error e => (.error e, ns)
    | .ok _ => (.ok (), ns)

/-- The binding `map`: `TypeError` when the callback is not callable;
otherwise transform every character through `mapRunOne` (any failure
unwinds before the core transform, leaving the instance unchanged) and
replace the normalized text positionally. -/
def mapBinding (ns : NormalizedString) (func : PyCallback) :
    Except PyErr Unit × NormalizedString :=
  if !func.callable then (.error (.typeError mapErrMsg), ns)
  else
    match traverseExcept (mapRunOne func) ns.normalized with
    | .error e => (.error e, ns)
    | .ok cs => (.ok (), ns.mapCore cs)

/-! ### Split policy, split and replace

Modelled from the spec: the core `split`, `replace` and the split-policy
grouping are absent from src/.  Spec §4.3 defines the five behaviors on
the ordered `(span, isMatch)` sequence; empty segments are never
emitted. -/

/-- MergedWithPrevious: a match span is appended to the end of the
immediately preceding emitted segment, or emitted alone if first. -/
def mergePrevGo : List (Nat × Nat) → List ((Nat × Nat) × Bool) → List (Nat × Nat)
  | acc, [] => acc.reverse
  | acc, ((s, e), false) :: rest => mergePrevGo ((s, e) :: acc) rest
  | [], ((s, e), true) :: rest => mergePrevGo [(s, e)] rest
  | (ps, _) :: acc, ((_, e), true) :: rest => mergePrevGo ((ps, e) :: acc) rest

/-- MergedWithNext: a match span is prepended to the start of the
immediately following segment, or emitted alone if last. -/
def mergeNextGo : List ((Nat × Nat) × Bool) → List (Nat × Nat)
  | [] => []
  | ((s, e), false) :: rest => (s, e) :: mergeNextGo rest
  | ((s, e), true) :: rest =>
    match mergeNextGo rest with
    | [] => [(s, e)]
    | (_, e2) :: tl => (s, e2) :: tl

/-- Contiguous: coalesce consecutive spans sharing the same `isMatch`
value into one span. -/
def coalesce : List ((Nat × Nat) × Bool) → List ((Nat × Nat) × Bool)
  | [] => []
  | [x] => [x]
  | ((s, e), f) :: ((s2, e2), f2) :: rest =>
    if f = f2 then coalesce (((s, e2), f) :: rest)
    else ((s, e), f) :: coalesce (((s2, e2), f2) :: rest)
  termination_by l => l.length

/-- The Split Policy: group the `(span, isMatch)` partition into the
output byte spans according to the behavior. -/
def applyBehavior (b : SplitDelimiterBehavior) (spans : List ((Nat × Nat) × Bool)) :
    List (Nat × Nat) :=
  match b with
  | .removed => ((spans.filter fun p => !p.2).map (·.1))
  | .isolated => spans.map (·.1)
  | .mergedWithPrevious => mergePrevGo [] spans
  | .mergedWithNext => mergeNextGo spans
  | .contiguous => (coalesce spans).map (·.1)

/-- Modelled from the spec: construct the output segment of `split` for
one byte span of the parent's normalized text — a new `NormalizedString`
whose `original` is the parent-original sub-text spanned by the covered
alignment entries and whose alignment table restarts at zero. -/
def NormalizedString.mkSegment (ns : NormalizedString) (r : Nat × Nat) : NormalizedString :=
  let seg := sliceWithCompanion (ns.normalized.zip ns.alignments) 0 r.1 r.2
  let uni := unionRange (seg.map (·.2))
  { original := sliceBytes ns.original uni.1 uni.2
    normalized := seg.map (·.1)
    alignments := seg.map (fun p => (p.2.1 - uni.1, p.2.2 - uni.1)) }

/-- Modelled from the spec: `NormalizedString::split` core, absent from
src/.  Find the spans via the pattern, group them via the Split Policy,
drop empty segments, and emit one independent `NormalizedString` per
remaining span.  A pattern failure is an error. -/
def NormalizedString.coreSplit (ns : NormalizedString) (p : PyPatternSpec)
    (b : SplitDelimiterBehavior) : Except String (List NormalizedString) := do
  let spans ← p.findMatches ns.normalized
  let merged := (applyBehavior b spans).filter fun r => r.1 < r.2
  .ok (merged.map ns.mkSegment)

/-- Modelled from the spec: `NormalizedString::replace` core, absent
from src/.  Substitute `content` for every matched span; every
introduced character inherits the union original-range of the matched
text; unmatched spans are kept verbatim.  A pattern failure is an
error. -/
def NormalizedString.coreReplace (ns : NormalizedString) (p : PyPatternSpec)
    (content : List Char) : Except String NormalizedString := do
  let spans ← p.findMatches ns.normalized
  let paired := ns.normalized.zip ns.alignments
  let pieces := spans.map fun sp =>
    let seg := sliceWithCompanion paired 0 sp.1.1 sp.1.2
    if sp.2 then
      let uni := unionRange (seg.map (·.2))
      content.map fun c => (c, uni)
    else seg
  let flat := pieces.flatten
  .ok { ns with normalized := flat.map (·.1), alignments := flat.map (·.2) }

/-! ### Remaining core mutators

Modelled from the spec (§4.1); absent from src/.  The Unicode
canonical-form computation itself is an external capability (spec §1 and
§6), so the four `nf*` operations are parameterized by it. -/

/-- The four Unicode canonical forms. -/
inductive UnicodeForm where
  | nfc | nfd | nfkc | nfkd
  deriving DecidableEq, Repr

/-- The external Unicode canonical-form capability together with the
alignment recomputation of `applyCanonicalForm` (spec §4.1), taken as a
whole-instance transformation parameter. -/
def UnicodeCap : Type :=
  UnicodeForm → NormalizedString → NormalizedString

/-- Modelled from the spec: `lowercase` — a 1:1 character remap with
alignment entries unchanged positionally. -/
def NormalizedString.lowercaseCore (ns : NormalizedString) : NormalizedString :=
  { ns with normalized := ns.normalized.map Char.toLower }

/-- Modelled from the spec: `uppercase` — a 1:1 character remap with
alignment entries unchanged positionally. -/
def NormalizedString.uppercaseCore (ns : NormalizedString) : NormalizedString :=
  { ns with normalized := ns.normalized.map Char.toUpper }

/-- Modelled from the spec: `prepend` — inserted characters get empty
alignment ranges; existing entries keep their ranges. -/
def NormalizedString.prependCore (ns : NormalizedString) (s : List Char) : NormalizedString :=
  { ns with
    normalized := s ++ ns.normalized
    alignments := (s.map fun _ => ((0 : Nat), (0 : Nat))) ++ ns.alignments }

/-- Modelled from the spec: `append` — inserted characters get empty
alignment ranges at the original's end boundary. -/
def NormalizedString.appendCore (ns : NormalizedString) (s : List Char) : NormalizedString :=
  let e := byteLen ns.original
  { ns with
    normalized := ns.normalized ++ s
    alignments := ns.alignments ++ s.map fun _ => (e, e) }

/-- Modelled from the spec: `lstrip` — a pure prefix truncation removing
leading whitespace characters and their alignment entries. -/
def NormalizedString.lstripCore (ns : NormalizedString) : NormalizedString :=
  let kept := (ns.normalized.zip ns.alignments).dropWhile fun p => p.1.isWhitespace
  { ns with normalized := kept.map (·.1), alignments := kept.map (·.2) }

/-- Modelled from the spec: `rstrip` — a pure suffix truncation removing
trailing whitespace characters and their alignment entries. -/
def NormalizedString.rstripCore (ns : NormalizedString) : NormalizedString :=
  let kept :=
    (((ns.normalized.zip ns.alignments).reverse.dropWhile fun p => p.1.isWhitespace)).reverse
  { ns with normalized := kept.map (·.1), alignments := kept.map (·.2) }

/-- Modelled from the spec: `strip` — both-ends truncation. -/
def NormalizedString.stripCore (ns : NormalizedString) : NormalizedString :=
  ns.lstripCore.rstripCore

/-- Modelled from the spec: `clear` — normalized text and alignments
reset to empty; `original` is retained. -/
def NormalizedString.clearCore (ns : NormalizedString) : NormalizedString :=
  { ns with normalized := [], alignments := [] }

/-! ### The Scoped Mutable Handle (`PyNormalizedStringRefMut`)

Modelled from the spec: `RefMutContainer` / `RefMutGuard` (the `super`
module) are absent from src/.  Spec §4.5: the handle wraps a live
reference behind a liveness flag; `destroy` flips it; every forwarded
call consults it first and fails with the `HandleExpired` error when it
is down, never touching the wrapped instance.  The world pairs the flag
with the wrapped (pointed-to) `NormalizedString`; each pymethod of
`PyNormalizedStringRefMut` is one operation of `NSOp`. -/

/-- The error produced by `PyNormalizedStringRefMut::destroyed_error`.
The spec names this condition `HandleExpired`. -/
def destroyedError : PyErr :=
  .exception "Cannot use a NormalizedStringRefMut outside `normalize`"

/-- The wrapped reference plus the container's liveness flag. -/
structure RefMutWorld where
  valid : Bool
  target : NormalizedString
  deriving DecidableEq, Repr

/-- Embeds `RefMutContainer::destroy`: drop the reference. -/
def RefMutWorld.destroy (w : RefMutWorld) : RefMutWorld :=
  { w with valid := false }

/-- One forwarded operation of `PyNormalizedStringRefMut` (one pymethod
each). -/
inductive NSOp where
  | getNormalized
  | getOriginal
  | nf (form : UnicodeForm)
  | lowercase
  | uppercase
  | prepend (s : List Char)
  | append (s : List Char)
  | lstrip
  | rstrip
  | strip
  | clear
  | sliceOp (r : PyRangeSpec)
  | filterOp (f : PyCallback)
  | forEachOp (f : PyCallback)
  | mapOp (f : PyCallback)
  | splitOp (p : PyPatternSpec) (b : SplitDelimiterBehavior)
  | replaceOp (p : PyPatternSpec) (content : List Char)

/-- Return value of a forwarded operation. -/
inductive RetVal where
  | unit
  | str (s : List Char)
  | optNs (o : Option NormalizedString)
  | listNs (l : List NormalizedString)
  deriving DecidableEq, Repr

/-- One forwarded call through the handle: every pymethod first runs the
container's `map` / `map_mut`, which yields `None` once destroyed, and
`ok_or_else(destroyed_error)` turns that into the `HandleExpired`
error before the wrapped instance is touched.  While the handle is live
the call forwards to the corresponding operation. -/
def refMutStep (uni : UnicodeCap) (op : NSOp) (w : RefMutWorld) :
    Except PyErr RetVal × RefMutWorld :=
  if w.valid = false then (.error destroyedError, w)
  else
    match op with
    | .getNormalized => (.ok (.str w.target.normalized), w)
    | .getOriginal => (.ok (.str w.target.original), w)
    | .nf form => (.ok .unit, { w with target := uni form w.target })
    | .lowercase => (.ok .unit, { w with target := w.target.lowercaseCore })
    | .uppercase => (.ok .unit, { w with target := w.target.uppercaseCore })
    | .prepend s => (.ok .unit, { w with target := w.target.prependCore s })
    | .append s => (.ok .unit, { w with target := w.target.appendCore s })
    | .lstrip => (.ok .unit, { w with target := w.target.lstripCore })
    | .rstrip => (.ok .unit, { w with target := w.target.rstripCore })
    | .strip => (.ok .unit, { w with target := w.target.stripCore })
    | .clear => (.ok .unit, { w with target := w.target.clearCore })
    | .sliceOp r =>
      match sliceBinding w.target r with
      | .error e => (.error e, w)
      | .ok o => (.ok (.optNs o), w)
    | .filterOp f =>
      match filterBinding w.target f with
      | (.error e, ns) => (.error e, { w with target := ns })
      | (.ok _, ns) => (.ok .unit, { w with target := ns })
    | .forEachOp f =>
      match forEachBinding w.target f with
      | (.error e, ns) => (.error e, { w with target := ns })
      | (.ok _, ns) => (.ok .unit, { w with target := ns })
    | .mapOp f =>
      match mapBinding w.target f with
      | (.error e, ns) => (.error e, { w with target := ns })
      | (.ok _, ns) => (.ok .unit, { w with target := ns })
    | .splitOp p b =>
      match w.target.coreSplit p b with
      | .error e => (.error (.exception e), w)
      | .ok segs => (.ok (.listNs segs), w)
    | .replaceOp p content =>
      match w.target.coreReplace p content with
      | .error e => (.error (.exception e), w)
      | .ok ns => (.ok .unit, { w with target := ns })

/-! ## Theorems -/

instance {ε α : Type} [DecidableEq ε] [DecidableEq α] : DecidableEq (Except ε α) := fun a b =>
  match a, b with
  | .error e1, .error e2 =>
    if h : e1 = e2 then isTrue (by rw [h]) else isFalse (by simp [h])
  | .error _, .ok _ => isFalse (by simp)
  | .ok _, .error _ => isFalse (by simp)
  | .ok v1, .ok v2 =>
    if h : v1 = v2 then isTrue (by rw [h]) else isFalse (by simp [h])

/-- Unfolding lemma for `toRange` on a single index. -/
theorem toRange_single_def (i : Int) (n : Nat) :
    toRange (.single i) n =
      if i < 0 then
        if (-i).toNat > n then
          .error (.valueError (toString (-i).toNat ++ " is bigger than max len"))
        else .ok (n - (-i).toNat, n - (-i).toNat + 1)
      else .ok (i.toNat, i.toNat + 1) :=
  rfl

/-- Unfolding lemma for the binding `slice` helper. -/
theorem sliceBinding_def (ns : NormalizedString) (r : PyRangeSpec) :
    sliceBinding ns r =
      match toRange r ns.len with
      | .error e => .error e
      | .ok cr => .ok ((char_to_bytes ns.normalized cr).bind fun br => ns.coreSlice br) := by
  rcases h : toRange r ns.len with e | cr <;>
    simp [sliceBinding, h, bind, Except.bind]

/-- C9: for every NormalizedString and every range specification, the
`__getitem__` indexing operation returns exactly the same result
(success / None / error outcome and resulting NormalizedString) as the
`slice` method — both delegate to the same `slice` helper. -/
theorem getitem_eq_slice (ns : NormalizedString) (r : PyRangeSpec) :
    PyNormalizedString.getitem ns r = PyNormalizedString.sliceMethod ns r :=
  rfl

/-- C10: parsing a split-delimiter behavior from a string succeeds
exactly for the five accepted values, each mapping to its behavior, and
fails with a ValueError for every other string. -/
theorem extract_behavior_spec (s : String) (b : SplitDelimiterBehavior) :
    (extractSplitDelimiterBehavior s = .ok b ↔
      (s = "removed" ∧ b = .removed) ∨
      (s = "isolated" ∧ b = .isolated) ∨
      (s = "merged_with_previous" ∧ b = .mergedWithPrevious) ∨
      (s = "merged_with_next" ∧ b = .mergedWithNext) ∨
      (s = "contiguous" ∧ b = .contiguous)) ∧
    (s ∉ (["removed", "isolated", "merged_with_previous", "merged_with_next",
        "contiguous"] : List String) →
      ∃ m, extractSplitDelimiterBehavior s = .error (.valueError m)) := by
  unfold extractSplitDelimiterBehavior
  constructor
  · split_ifs with h1 h2 h3 h4 h5 <;> simp_all [eq_comm]
  · intro hmem
    simp only [List.mem_cons, List.not_mem_nil, or_false, not_or] at hmem
    obtain ⟨h1, h2, h3, h4, h5⟩ := hmem
    simp [h1, h2, h3, h4, h5]

/-- Closed witness for C10: an accepted value parses to its behavior and
a rejected value yields a ValueError. -/
theorem extract_behavior_spec_witness :
    extractSplitDelimiterBehavior "removed" = .ok .removed ∧
    ∃ m, extractSplitDelimiterBehavior "bogus" = .error (.valueError m) := by
  refine ⟨?_, ?_⟩
  · exact (extract_behavior_spec "removed" .removed).1.mpr (Or.inl ⟨rfl, rfl⟩)
  · exact (extract_behavior_spec "bogus" .removed).2 (by decide)

/-- C4: resolving a `Single(i)` range against bound `n`: a negative `i`
resolves to `[n - natAbs i, n - natAbs i + 1)` and fails (with a
ValueError, the binding's RangeError) exactly when `natAbs i > n`; a
non-negative `i` resolves to `[i, i + 1)` and never fails, with no
upper-bound check. -/
theorem toRange_single_spec (n : Nat) (i : Int) :
    (i < 0 →
      ((∃ v, toRange (.single i) n = .ok v) ↔ i.natAbs ≤ n) ∧
      (i.natAbs ≤ n →
        toRange (.single i) n = .ok (n - i.natAbs, n - i.natAbs + 1)) ∧
      (i.natAbs > n →
        ∃ m, toRange (.single i) n = .error (.valueError m))) ∧
    (0 ≤ i → toRange (.single i) n = .ok (i.toNat, i.toNat + 1)) := by
  constructor
  · intro hneg
    have habs : (-i).toNat = i.natAbs := by omega
    rw [toRange_single_def, if_pos hneg, habs]
    refine ⟨?_, ?_, ?_⟩
    · constructor
      · rintro ⟨v, hv⟩
        by_contra hgt
        rw [if_pos (by omega)] at hv
        exact Except.noConfusion hv
      · intro hle
        exact ⟨_, by rw [if_neg (by omega)]⟩
    · intro hle
      rw [if_neg (by omega)]
    · intro hgt
      exact ⟨_, by rw [if_pos (by omega)]⟩
  · intro hpos
    rw [toRange_single_def, if_neg (by omega)]

/-- Closed witness for C4: `Single(-2)` on bound 5 resolves to `[3,4)`,
`Single(-7)` on bound 5 errors, and `Single(7)` on bound 5 resolves to
`[7,8)` unchecked. -/
theorem toRange_single_spec_witness :
    toRange (.single (-2)) 5 = .ok (3, 4) ∧
    (∃ m, toRange (.single (-7)) 5 = .error (.valueError m)) ∧
    toRange (.single 7) 5 = .ok (7, 8) := by
  refine ⟨?_, ?_, ?_⟩
  · exact ((toRange_single_spec 5 (-2)).1 (by decide)).2.1 (by decide)
  · exact ((toRange_single_spec 5 (-7)).1 (by decide)).2.2 (by decide)
  · exact (toRange_single_spec 5 7).2 (by decide)

/-- C1: every operation forwarded through the Scoped Mutable Handle
after it has been invalidated fails with the HandleExpired error
(`destroyed_error`), for every forwarded operation alike, and the
wrapped NormalizedString is left untouched. -/
theorem refMut_destroyed_spec (uni : UnicodeCap) (op : NSOp) (w : RefMutWorld)
    (h : w.valid = false) :
    refMutStep uni op w = (.error destroyedError, w) := by
  unfold refMutStep
  rw [if_pos h]

/-- Closed witness for C1: a destroyed handle rejects a forwarded
mutation, leaving the wrapped instance as it was. -/
theorem refMut_destroyed_spec_witness :
    refMutStep (fun _ ns => ns) .clear
        { valid := false, target := NormalizedString.fromChars ['a'] } =
      (.error destroyedError,
        { valid := false, target := NormalizedString.fromChars ['a'] }) :=
  refMut_destroyed_spec (fun _ ns => ns) .clear
    { valid := false, target := NormalizedString.fromChars ['a'] } rfl

/-- C7: a range specification that fails resolution makes `slice` fail
with that error, while a structurally valid specification whose resolved
character range has no corresponding byte span yields the explicit
no-value outcome `Ok(None)`, distinct from an error. -/
theorem slice_none_vs_error_spec (ns : NormalizedString) (r : PyRangeSpec) :
    (∀ e, toRange r ns.len = .error e → sliceBinding ns r = .error e) ∧
    (∀ cr, toRange r ns.len = .ok cr →
      char_to_bytes ns.normalized cr = Option.none →
      sliceBinding ns r = .ok Option.none) := by
  constructor
  · intro e he
    rw [sliceBinding_def, he]
  · intro cr hcr hnone
    rw [sliceBinding_def, hcr]
    simp [hnone]

/-- Closed witness for C7: on `"ab"`, `Single(-3)` fails resolution and
`slice` errors; the pair range `(5,7)` resolves but has no byte span and
`slice` returns `Ok(None)`. -/
theorem slice_none_vs_error_spec_witness :
    sliceBinding (NormalizedString.fromChars ['a', 'b']) (.single (-3)) =
      .error (.valueError "3 is bigger than max len") ∧
    sliceBinding (NormalizedString.fromChars ['a', 'b']) (.range 5 7) =
      .ok Option.none := by
  constructor
  · exact (slice_none_vs_error_spec (NormalizedString.fromChars ['a', 'b'])
      (.single (-3))).1 _ (by decide)
  · exact (slice_none_vs_error_spec (NormalizedString.fromChars ['a', 'b'])
      (.range 5 7)).2 (5, 7) (by decide) (by decide)

/-! ### Lemmas about the callback traversals -/

/-- The observer traversal succeeds exactly when the observer call
succeeds on every character. -/
theorem obsTraverse_ok_iff (func : PyCallback) (l : List Char) :
    (∃ u, traverseExcept (obsRunOne func) l = Except.ok u) ↔
      ∀ c ∈ l, ∃ v, func.run c = Except.ok v := by
  induction l with
  | nil => simp [traverseExcept]
  | cons c rest ih =>
    simp only [List.mem_cons]
    constructor
    · rintro ⟨u, hu⟩
      rw [traverseExcept] at hu
      cases hr : func.run c with
      | error e =>
        rw [show obsRunOne func c = .error (.panicExc forEachErrMsg) from by
          simp [obsRunOne, hr]] at hu
        exact Except.noConfusion hu
      | ok v =>
        rw [show obsRunOne func c = .ok () from by simp [obsRunOne, hr]] at hu
        cases htr : traverseExcept (obsRunOne func) rest with
        | error e =>
          rw [htr] at hu
          exact Except.noConfusion hu
        | ok us =>
          intro c2 hc2
          rcases hc2 with hc2 | hc2
          · exact ⟨v, hc2 ▸ hr⟩
          · exact ih.mp ⟨us, htr⟩ c2 hc2
    · intro hall
      obtain ⟨v, hv⟩ := hall c (Or.inl rfl)
      obtain ⟨us, hus⟩ := ih.mpr fun c2 hc2 => hall c2 (Or.inr hc2)
      refine ⟨() :: us, ?_⟩
      rw [traverseExcept, show obsRunOne func c = .ok () from by simp [obsRunOne, hv], hus]
      rfl

/-- The binding `for_each` never changes the instance, in any branch. -/
theorem forEachBinding_state (ns : NormalizedString) (func : PyCallback) :
    (forEachBinding ns func).2 = ns := by
  unfold forEachBinding
  split
  · rfl
  · split <;> rfl

/-- A failing `filterBinding` leaves the instance unchanged. -/
theorem filterBinding_error_unchanged (ns : NormalizedString) (func : PyCallback)
    (e : PyErr) (h : (filterBinding ns func).1 = .error e) :
    (filterBinding ns func).2 = ns := by
  unfold filterBinding at h ⊢
  cases hc : (!func.callable) with
  | true => simp only [hc, if_pos]
  | false =>
    simp only [hc, Bool.false_eq_true, if_false] at h ⊢
    cases htr : traverseExcept (filterRunOne func) ns.normalized with
    | error e2 => rfl
    | ok keeps =>
      rw [htr] at h
      exact Except.noConfusion h

/-- A failing `mapBinding` leaves the instance unchanged. -/
theorem mapBinding_error_unchanged (ns : NormalizedString) (func : PyCallback)
    (e : PyErr) (h : (mapBinding ns func).1 = .error e) :
    (mapBinding ns func).2 = ns := by
  unfold mapBinding at h ⊢
  cases hc : (!func.callable) with
  | true => simp only [hc, if_pos]
  | false =>
    simp only [hc, Bool.false_eq_true, if_false] at h ⊢
    cases htr : traverseExcept (mapRunOne func) ns.normalized with
    | error e2 => rfl
    | ok cs =>
      rw [htr] at h
      exact Except.noConfusion h

/-- C8: for every NormalizedString and every invokable observer
callback, `for_each` is a read-only traversal in character order: the
normalized text, the original text, and the alignment table are exactly
what they were before, and the call succeeds exactly when the observer
accepts every character of the normalized text (each one is consulted,
left to right). -/
theorem forEach_readonly_spec (ns : NormalizedString) (func : PyCallback)
    (h : func.callable = true) :
    (forEachBinding ns func).2.normalized = ns.normalized ∧
    (forEachBinding ns func).2.original = ns.original ∧
    (forEachBinding ns func).2.alignments = ns.alignments ∧
    ((forEachBinding ns func).1 = .ok () ↔
      ∀ c ∈ ns.normalized, ∃ v, func.run c = Except.ok v) := by
  rw [forEachBinding_state ns func]
  refine ⟨rfl, rfl, rfl, ?_⟩
  unfold forEachBinding
  have hc : (!func.callable) = false := by rw [h]; rfl
  simp only [hc, Bool.false_eq_true, if_false]
  rw [← obsTraverse_ok_iff func ns.normalized]
  cases htr : traverseExcept (obsRunOne func) ns.normalized with
  | error e =>
    constructor
    · intro hcontra; exact Except.noConfusion hcontra
    · rintro ⟨u, hu⟩; exact Except.noConfusion hu
  | ok us =>
    exact ⟨fun _ => ⟨us, rfl⟩, fun _ => rfl⟩

/-- Closed witness for C8: a traversal over `"ab"` with an observer that
accepts everything leaves all three fields unchanged and succeeds. -/
theorem forEach_readonly_spec_witness :
    (forEachBinding (NormalizedString.fromChars ['a', 'b'])
        { callable := true, run := fun _ => .ok .none }).2.normalized = ['a', 'b'] ∧
    ((forEachBinding (NormalizedString.fromChars ['a', 'b'])
        { callable := true, run := fun _ => .ok .none }).1 = .ok () ↔
      ∀ c ∈ (NormalizedString.fromChars ['a', 'b']).normalized,
        ∃ v, ({ callable := true, run := fun _ => .ok .none } : PyCallback).run c =
          Except.ok v) := by
  have hm := forEach_readonly_spec (NormalizedString.fromChars ['a', 'b'])
    { callable := true, run := fun _ => .ok .none } rfl
  exact ⟨hm.1, hm.2.2.2⟩

/-- A callback that is not invokable. -/
def notCallableCb : PyCallback :=
  { callable := false, run := fun _ => .ok .none }

/-- An invokable callback returning a value that is neither a string nor
a bool. -/
def wrongTypeCb : PyCallback :=
  { callable := true, run := fun _ => .ok .other }

/-- An invokable callback returning the two-character string `"xy"`. -/
def truncCb : PyCallback :=
  { callable := true, run := fun _ => .ok (.str ['x', 'y']) }

/-- An invokable callback returning the empty string. -/
def emptyStrCb : PyCallback :=
  { callable := true, run := fun _ => .ok (.str []) }

/-- C3: a non-invokable callback makes `filter`, `for_each` and `map`
fail with the contract error (TypeError) and the instance unchanged; an
invokable callback whose returned value has the wrong type (observed on
the first character) makes `filter` (non-bool) and `map` (non-string)
fail with the contract error and the instance unchanged; and every
failing outcome of the three operations leaves the instance unchanged. -/
theorem callback_error_spec (ns : NormalizedString) (func : PyCallback) :
    (func.callable = false →
      filterBinding ns func = (.error (.typeError filterErrMsg), ns) ∧
      forEachBinding ns func = (.error (.typeError forEachErrMsg), ns) ∧
      mapBinding ns func = (.error (.typeError mapErrMsg), ns)) ∧
    (∀ c rest v, func.callable = true → ns.normalized = c :: rest →
      func.run c = .ok v →
      (extractBool v = Option.none →
        filterBinding ns func = (.error (.panicExc filterErrMsg), ns)) ∧
      (extractString v = Option.none →
        mapBinding ns func = (.error (.panicExc mapErrMsg), ns))) ∧
    (∀ e, (filterBinding ns func).1 = .error e → (filterBinding ns func).2 = ns) ∧
    (∀ e, (mapBinding ns func).1 = .error e → (mapBinding ns func).2 = ns) ∧
    (∀ e, (forEachBinding ns func).1 = .error e → (forEachBinding ns func).2 = ns) := by
  refine ⟨?_, ?_, ?_, ?_, ?_⟩
  · intro hc
    refine ⟨?_, ?_, ?_⟩ <;> simp [filterBinding, forEachBinding, mapBinding, hc]
  · intro c rest v hcall hns hr
    constructor
    · intro hb
      have h1 : filterRunOne func c = .error (.panicExc filterErrMsg) := by
        simp [filterRunOne, hr, hb]
      have h2 : traverseExcept (filterRunOne func) ns.normalized =
          .error (.panicExc filterErrMsg) := by
        rw [hns, traverseExcept, h1]
        rfl
      simp [filterBinding, hcall, h2]
    · intro hs
      have h1 : mapRunOne func c = .error (.panicExc mapErrMsg) := by
        simp [mapRunOne, hr, hs]
      have h2 : traverseExcept (mapRunOne func) ns.normalized =
          .error (.panicExc mapErrMsg) := by
        rw [hns, traverseExcept, h1]
        rfl
      simp [mapBinding, hcall, h2]
  · exact fun e => filterBinding_error_unchanged ns func e
  · exact fun e => mapBinding_error_unchanged ns func e
  · exact fun e _ => forEachBinding_state ns func

/-- Closed witness for C3: a non-invokable callback and a wrong-typed
return value each fail with the contract error and leave the instance
unchanged. -/
theorem callback_error_spec_witness :
    filterBinding (NormalizedString.fromChars ['a']) notCallableCb =
      (.error (.typeError filterErrMsg), NormalizedString.fromChars ['a']) ∧
    filterBinding (NormalizedString.fromChars ['a']) wrongTypeCb =
      (.error (.panicExc filterErrMsg), NormalizedString.fromChars ['a']) ∧
    mapBinding (NormalizedString.fromChars ['a']) wrongTypeCb =
      (.error (.panicExc mapErrMsg), NormalizedString.fromChars ['a']) := by
  refine ⟨?_, ?_, ?_⟩
  · exact ((callback_error_spec _ notCallableCb).1 rfl).1
  · exact ((callback_error_spec _ wrongTypeCb).2.1 'a' [] .other rfl rfl rfl).1 rfl
  · exact ((callback_error_spec _ wrongTypeCb).2.1 'a' [] .other rfl rfl rfl).2 rfl

/-- C2 counterexample: a map callback returning the two-character string
`"xy"` does not make `map` fail — the operation succeeds and the result
is silently truncated to the first character, contradicting the claimed
ContractViolation error. -/
theorem map_multichar_counterexample :
    (mapBinding (NormalizedString.fromChars ['a']) truncCb).1 = .ok () ∧
    (mapBinding (NormalizedString.fromChars ['a']) truncCb).2.normalized = ['x'] := by
  constructor <;> rfl

/-- C2 amended: a zero-character callback result makes the per-character
step (and hence the operation, when it occurs) fail with the reported
map-contract error and no mutation; a result of more than one character
is not an error — its first character is used and the rest discarded. -/
theorem map_contract_amended (ns : NormalizedString) (func : PyCallback) :
    (∀ c s, func.run c = .ok (.str s) →
      (s = [] → mapRunOne func c = .error (.panicExc mapErrMsg)) ∧
      (∀ c2 rest, s = c2 :: rest → mapRunOne func c = .ok c2)) ∧
    (∀ e, (mapBinding ns func).1 = .error e → (mapBinding ns func).2 = ns) ∧
    (∀ c rest, func.callable = true → ns.normalized = c :: rest →
      func.run c = .ok (.str []) →
      mapBinding ns func = (.error (.panicExc mapErrMsg), ns)) := by
  refine ⟨?_, ?_, ?_⟩
  · intro c s hr
    constructor
    · intro hnil
      subst hnil
      simp [mapRunOne, hr, extractString]
    · intro c2 rest hcons
      subst hcons
      simp [mapRunOne, hr, extractString]
  · exact fun e => mapBinding_error_unchanged ns func e
  · intro c rest hcall hns hr
    have h1 : mapRunOne func c = .error (.panicExc mapErrMsg) := by
      simp [mapRunOne, hr, extractString]
    have h2 : traverseExcept (mapRunOne func) ns.normalized =
        .error (.panicExc mapErrMsg) := by
      rw [hns, traverseExcept, h1]
      rfl
    simp [mapBinding, hcall, h2]

/-- Closed witness for the amended C2: the two-character result yields
its first character with no error; the empty result fails the operation
with the contract error and no mutation. -/
theorem map_contract_amended_witness :
    mapRunOne truncCb 'a' = .ok 'x' ∧
    mapBinding (NormalizedString.fromChars ['a']) emptyStrCb =
      (.error (.panicExc mapErrMsg), NormalizedString.fromChars ['a']) := by
  constructor
  · exact ((map_contract_amended (NormalizedString.fromChars ['a']) truncCb).1
      'a' ['x', 'y'] rfl).2 'x' ['y'] rfl
  · exact (map_contract_amended _ emptyStrCb).2.2 'a' [] rfl rfl rfl

/-! ### C5: slice resolution -/

/-- The endpoint adjustment performed by `slice.indices` for a
non-negative step: negative values count from the end (clamping below at
0), values past the end clamp to `n`; `dflt` is the default for an
absent endpoint. -/
def clampPos (n : Nat) (o : Option Int) (dflt : Int) : Int :=
  match o with
  | Option.none => dflt
  | some v =>
    if v < 0 then (if v + (n : Int) < 0 then 0 else v + (n : Int))
    else if v ≥ (n : Int) then (n : Int) else v

/-- The spec's "standard clamped slice semantics" for the start
endpoint: absent means 0, negative counts from the end, everything
clamps into `[0, n]`. -/
def specClampStart (n : Nat) : Option Int → Nat
  | Option.none => 0
  | some v => if v < 0 then (v + (n : Int)).toNat else min v.toNat n

/-- The spec's "standard clamped slice semantics" for the stop endpoint:
absent means `n`, negative counts from the end, everything clamps into
`[0, n]`. -/
def specClampStop (n : Nat) : Option Int → Nat
  | Option.none => n
  | some v => if v < 0 then (v + (n : Int)).toNat else min v.toNat n

/-- Casting `isize as usize` is the identity on values in `[0, 2^64)`. -/
theorem castUsize_of_nonneg (i : Int) (h0 : 0 ≤ i) (h1 : i < 2 ^ 64) :
    castUsize i = i.toNat := by
  unfold castUsize
  rw [Int.emod_eq_of_lt h0 h1]

/-- The adjustment `clampPos` stays within `[0, n]`. -/
theorem clampPos_bounds (n : Nat) (o : Option Int) (dflt : Int)
    (h0 : 0 ≤ dflt) (h1 : dflt ≤ (n : Int)) :
    0 ≤ clampPos n o dflt ∧ clampPos n o dflt ≤ (n : Int) := by
  cases o with
  | none => exact ⟨h0, h1⟩
  | some v =>
    dsimp only [clampPos]
    split_ifs <;> constructor <;> omega

/-- Casting the adjusted start endpoint gives the spec's clamped
start. -/
theorem castUsize_clamp_start (n : Nat) (hn : n < 2 ^ 63) (o : Option Int) :
    castUsize (clampPos n o 0) = specClampStart n o := by
  have hb := clampPos_bounds n o 0 le_rfl (by positivity)
  rw [castUsize_of_nonneg _ hb.1 (by omega)]
  cases o with
  | none => rfl
  | some v =>
    dsimp only [clampPos, specClampStart]
    split_ifs <;> omega

/-- Casting the adjusted stop endpoint gives the spec's clamped stop. -/
theorem castUsize_clamp_stop (n : Nat) (hn : n < 2 ^ 63) (o : Option Int) :
    castUsize (clampPos n o (n : Int)) = specClampStop n o := by
  have hb := clampPos_bounds n o (n : Int) (by positivity) le_rfl
  rw [castUsize_of_nonneg _ hb.1 (by omega)]
  cases o with
  | none => simp [clampPos, specClampStop]
  | some v =>
    dsimp only [clampPos, specClampStop]
    split_ifs <;> omega

/-- With a non-zero, non-negative step, `slice.indices` returns the
adjusted endpoints and the step, with no further validation. -/
theorem sliceIndices_pos (start stop step : Option Int) (n : Nat)
    (h0 : step ≠ some 0) (hpos : 0 < step.getD 1) :
    sliceIndices start stop step n =
      .ok (clampPos n start 0, clampPos n stop (n : Int), step.getD 1) := by
  unfold sliceIndices
  rw [if_neg h0]
  have hsn : ¬ (step.getD 1 < 0) := by omega
  simp only [hsn, if_false, clampPos]

/-- Unfolding lemma for `toRange` on a slice. -/
theorem toRange_slice_def (start stop step : Option Int) (n : Nat) :
    toRange (.slice start stop step) n =
      match sliceIndices start stop step n with
      | .error e => .error e
      | .ok (s, e, _) => .ok (castUsize s, castUsize e) := by
  rcases h : sliceIndices start stop step n with e | ⟨s, e, st⟩ <;>
    simp [toRange, h, bind, Except.bind]

/-- C5 counterexample: a slice whose step is 2 (not 1) is accepted as a
valid range specification — on bound 4, `slice(0, 4, 2)` resolves
without error to `[0, 4)` — contradicting the claim that only step = 1
slices are accepted. -/
theorem slice_step_counterexample :
    toRange (.slice (some 0) (some 4) (some 2)) 4 = .ok (0, 4) := by
  rfl

/-- C5 amended: slice endpoints are resolved with the standard clamped
slice semantics against `n` (negative endpoints count from the end,
out-of-range endpoints clamp to `[0, n]`), but the step is not
constrained to 1: any positive (or absent) step is accepted and ignored,
the resolved range being just `[start, stop)`; only a zero step is
rejected, with a ValueError. -/
theorem slice_clamp_amended (n : Nat) (start stop step : Option Int)
    (hn : n < 2 ^ 63) :
    ((step = Option.none ∨ ∃ s : Int, step = some s ∧ 0 < s) →
      toRange (.slice start stop step) n =
        .ok (specClampStart n start, specClampStop n stop)) ∧
    (step = some 0 →
      toRange (.slice start stop step) n =
        .error (.valueError "slice step cannot be zero")) := by
  constructor
  · intro hstep
    have h0 : step ≠ some 0 := by
      rcases hstep with h | ⟨s, hs, hpos⟩
      · rw [h]
        exact fun hc => Option.noConfusion hc
      · rw [hs]
        intro hc
        injection hc with hc
        omega
    have hpos : 0 < step.getD 1 := by
      rcases hstep with h | ⟨s, hs, hposs⟩
      · rw [h]
        norm_num
      · rw [hs]
        exact hposs
    rw [toRange_slice_def, sliceIndices_pos start stop step n h0 hpos]
    rw [show (match (Except.ok (clampPos n start 0, clampPos n stop (n : Int),
        step.getD 1) : Except PyErr (Int × Int × Int)) with
      | .error e => Except.error e
      | .ok (s, e, _) => Except.ok (castUsize s, castUsize e)) =
        Except.ok (castUsize (clampPos n start 0),
          castUsize (clampPos n stop (n : Int))) from rfl]
    rw [castUsize_clamp_start n hn start, castUsize_clamp_stop n hn stop]
  · intro h0
    rw [toRange_slice_def]
    rw [show sliceIndices start stop step n =
        .error (.valueError "slice step cannot be zero") from by
      unfold sliceIndices
      rw [if_pos h0]]

/-- Closed witness for the amended C5: on bound 4, a step-2 slice with a
negative start resolves to the clamped range `[2, 4)`, and a step-0
slice errors. -/
theorem slice_clamp_amended_witness :
    toRange (.slice (some (-2)) Option.none (some 2)) 4 = .ok (2, 4) ∧
    toRange (.slice (some 0) (some 4) (some 0)) 4 =
      .error (.valueError "slice step cannot be zero") := by
  constructor
  · have h := (slice_clamp_amended 4 (some (-2)) Option.none (some 2)
      (by norm_num)).1 (Or.inr ⟨2, rfl, by norm_num⟩)
    rw [h]
    rfl
  · exact (slice_clamp_amended 4 (some 0) (some 4) (some 0) (by norm_num)).2 rfl

/-! ### C6: pattern dispatch equivalence -/

/-- Scanning for the one-character substring `[c]` finds exactly the
occurrence spans of the character `c`. -/
theorem scanMatches_singleton (c : Char) : ∀ (l : List Char) (pos : Nat),
    scanMatches [c] l pos = charMatchSpans c l pos := by
  intro l
  induction l with
  | nil =>
    intro pos
    rw [scanMatches, charMatchSpans]
  | cons x rest ih =>
    intro pos
    by_cases hx : x = c
    · subst hx
      rw [scanMatches, charMatchSpans]
      rw [if_pos ⟨by simp, by simp⟩, if_pos rfl]
      rw [show byteLen [x] = x.utf8Size from by simp [byteLen]]
      rw [show (x :: rest).drop [x].length = rest from by simp]
      rw [ih]
    · rw [scanMatches, charMatchSpans]
      rw [if_neg (by simp [hx]), if_neg hx]
      rw [ih]

/-- The single-character path and the substring path agree on
one-character literals. -/
theorem charFind_eq_strFind (c : Char) (inside : List Char) :
    charFindMatches c inside = strFindMatches [c] inside := by
  unfold charFindMatches strFindMatches
  rw [scanMatches_singleton]

/-- C6: `find_matches` dispatches a one-character string literal to the
single-character path and any other literal to the substring path, and
on a one-character literal the two paths produce exactly the same
partition of every haystack. -/
theorem pattern_dispatch_equiv (s : List Char) (inside : List Char) :
    (∀ c, s = [c] → pyPatternFindMatches s inside = charFindMatches c inside) ∧
    (s.length ≠ 1 → pyPatternFindMatches s inside = strFindMatches s inside) ∧
    (∀ c, charFindMatches c inside = strFindMatches [c] inside) := by
  refine ⟨?_, ?_, ?_⟩
  · intro c hs
    subst hs
    rfl
  · intro hlen
    cases s with
    | nil => rfl
    | cons a tail =>
      cases tail with
      | nil => exact absurd rfl hlen
      | cons b tail2 => rfl
  · intro c
    exact charFind_eq_strFind c inside

/-- Closed witness for C6: the dispatch and the equivalence at the
one-character literal `"a"` over the haystack `"xa"`, and the dispatch
of the two-character literal `"ab"`. -/
theorem pattern_dispatch_equiv_witness :
    pyPatternFindMatches ['a'] ['x', 'a'] = charFindMatches 'a' ['x', 'a'] ∧
    pyPatternFindMatches ['a', 'b'] ['x', 'a'] = strFindMatches ['a', 'b'] ['x', 'a'] ∧
    charFindMatches 'a' ['x', 'a'] = strFindMatches ['a'] ['x', 'a'] := by
  refine ⟨?_, ?_, ?_⟩
  · exact (pattern_dispatch_equiv ['a'] ['x', 'a']).1 'a' rfl
  · exact (pattern_dispatch_equiv ['a', 'b'] ['x', 'a']).2.1 (by decide)
  · exact (pattern_dispatch_equiv ['a'] ['x', 'a']).2.2 'a'

end Spec2Proof
